import Mathlib

/-!
Verification of the leader-side block-production scheduler
(`core/generator/generator.go`): startup recovery and reconciliation of a
leftover pending block, the fixed-period production loop with cooperative
cancellation, the commit pipeline height check, and the peer-facing
`Submit` and `GetBlocks` endpoints.

Embedding conventions: heights and other machine words are `Nat` values of
uint64 variables, and every `+ 1` the Go code computes on a uint64 is taken
modulo `2 ^ 64`. External collaborators (the `cos.FC` ledger engine, the
signer, `pg` storage, `log.Fatal`) live outside `src/`; their behaviour is
modelled from the spec, with each such definition marked, and their
per-call outcomes are passed in as explicit oracle arguments. The
nondeterministic `select` of the main loop is modelled by an explicit list
of loop events in the order the loop observes them.
-/

namespace ChainGenerator

/-- A transaction (`bc.Tx`), abstracted to an identifier: no claim inspects
transaction contents. -/
structure Tx where
  id : Nat
  deriving DecidableEq, Repr

/-- A block (`bc.Block`): the claims inspect only its uint64 `Height`;
`payload` stands for the remaining fields so that distinct blocks of equal
height are representable. -/
structure Block where
  height : Nat
  payload : Nat
  deriving DecidableEq, Repr

/-- A ledger state snapshot (`state.Snapshot`), abstracted to an
identifier. -/
structure Snapshot where
  stateId : Nat
  deriving DecidableEq, Repr

/-- Errors flowing through the generator. Oracle arguments may carry any
value; `wrapWait` and `wrapQuery` are the two `errors.Wrap` contexts added
by `GetBlocks`. -/
inductive GenErr
  | recoverFailed (code : Nat)
  | pendingQueryFailed (code : Nat)
  | commitHeightMismatch
  | engineFailed (code : Nat)
  | signerFailed (code : Nat)
  | canceled
  | storageFailed (code : Nat)
  | wrapWait (e : GenErr)
  | wrapQuery (e : GenErr)
  deriving DecidableEq, Repr

/-- `RemoteSigner`: address and public key of a co-signing Core
(`url.URL` and `ed25519.PublicKey` abstracted). -/
structure RemoteSigner where
  url : String
  key : Nat
  deriving DecidableEq, Repr

/-- `Config`: generator configuration. The `FC` field of the Go struct is a
handle to the external ledger engine; in this embedding the engine state is
a `Ledger` value passed explicitly to each operation, so `Config` keeps
only the signer configuration. Note it has no head fields. -/
structure Config where
  remoteSigners : List RemoteSigner
  localSigner : Option Nat
  deriving DecidableEq, Repr

/-- `Generator`: the `Config` plus the in-memory head pair `latestBlock`
and `latestSnapshot` (Go pointers, hence `Option`). -/
structure Generator where
  config : Config
  latestBlock : Option Block
  latestSnapshot : Option Snapshot
  deriving DecidableEq, Repr

/-- `New` constructs a generator from a recovered head and a config
(lines 29..35 of `generator.go`). -/
def New (block : Option Block) (snapshot : Option Snapshot) (config : Config) : Generator :=
  { config := config, latestBlock := block, latestSnapshot := snapshot }

/-- The external ledger engine and durable storage state: the committed
blocks table and the pending transaction pool. -/
structure Ledger where
  blocks : List Block
  pendingTxs : List Tx
  deriving DecidableEq, Repr

/-- Result of one commit-pipeline invocation: the (possibly updated) ledger
and head, and the error if the commit was rejected or failed. On failure
the ledger and head components equal the inputs. -/
structure CommitResult where
  ledger : Ledger
  head : Option Block × Option Snapshot
  err : Option GenErr
  deriving DecidableEq, Repr

/-- Modelled from the spec: the commit pipeline (`g.commitBlock`, backed by
the `cos.FC` engine, which is not under `src/`). The spec: it applies the
candidate to the ledger engine durably and then updates the head
atomically, and it rejects — fails without applying anything — any
candidate whose height is not exactly `currentHead.height + 1` (uint64
successor). With no current head there is no height to check against. The
engine outcome (the new snapshot, or a failure) is external and supplied as
`engineResult`; on any failure the ledger and head are returned
unchanged. -/
def commitBlock (led : Ledger) (head : Option Block × Option Snapshot) (b : Block)
    (engineResult : Except GenErr Snapshot) : CommitResult :=
  match head.1 with
  | some hb =>
    if b.height = (hb.height + 1) % 2 ^ 64 then
      match engineResult with
      | .error e => { ledger := led, head := head, err := some e }
      | .ok snap =>
          { ledger := { led with blocks := led.blocks ++ [b] },
            head := (some b, some snap), err := none }
    else { ledger := led, head := head, err := some .commitHeightMismatch }
  | none =>
    match engineResult with
    | .error e => { ledger := led, head := head, err := some e }
    | .ok snap =>
        { ledger := { led with blocks := led.blocks ++ [b] },
          head := (some b, some snap), err := none }

/-- The state threaded through the main loop: the generator (whose head
fields `commitBlock` updates), the external ledger, the blocks committed so
far by this process, and the errors logged by `log.Error`. -/
structure LoopState where
  gen : Generator
  ledger : Ledger
  commits : List Block
  loggedErrors : List GenErr
  deriving DecidableEq, Repr

/-- Modelled from the spec: `g.MakeBlock` (generator internals not under
`src/`) — one production cycle: ask the signer to build and sign a
candidate from the current head and pending transactions, then commit it
through the commit pipeline, updating the head. The signer round-trip and
the engine outcome are external and supplied as oracles; the returned error
is what `Generate` logs. -/
def MakeBlock (st : LoopState) (signerResult : Except GenErr Block)
    (engineResult : Except GenErr Snapshot) : LoopState × Option GenErr :=
  match signerResult with
  | .error e => (st, some e)
  | .ok cand =>
    let r := commitBlock st.ledger (st.gen.latestBlock, st.gen.latestSnapshot) cand engineResult
    match r.err with
    | some e =>
        ({ st with ledger := r.ledger,
                   gen := { st.gen with latestBlock := r.head.1, latestSnapshot := r.head.2 } },
         some e)
    | none =>
        ({ st with ledger := r.ledger,
                   gen := { st.gen with latestBlock := r.head.1, latestSnapshot := r.head.2 },
                   commits := st.commits ++ [cand] },
         none)

/-- One observed outcome of the `select` in the main loop (lines 85..94):
either the cancellation channel fired, or the ticker fired and the
production attempt ran with the given external outcomes. -/
inductive LoopEvent
  | done
  | tick (signerResult : Except GenErr Block) (engineResult : Except GenErr Snapshot)
  deriving Repr

/-- The main loop (lines 84..95): on `done`, return at once — the remaining
events are never looked at; on a tick, run `MakeBlock` and, if it failed,
log the error (`log.Error`) and keep looping. -/
def genLoop : LoopState → List LoopEvent → LoopState
  | st, [] => st
  | st, .done :: _ => st
  | st, .tick s en :: rest =>
    match MakeBlock st s en with
    | (st1, some e) => genLoop { st1 with loggedErrors := st1.loggedErrors ++ [e] } rest
    | (st1, none) => genLoop st1 rest

/-- The reconciliation guard, exactly as on line 75 of `generator.go`:
`b != nil && (g.latestBlock == nil || b.Height == g.latestBlock.Height+1)`,
here specialized to a present pending block `b`. The uint64 sum wraps
modulo `2 ^ 64`. -/
def pendingCommitGuard (latestBlock : Option Block) (b : Block) : Bool :=
  match latestBlock with
  | none => true
  | some hb => b.height == (hb.height + 1) % 2 ^ 64

/-- The loop state right after `g := New(...)` on line 66: recovered head
installed, nothing committed, nothing logged. -/
def initState (config : Config) (rb : Option Block) (rs : Option Snapshot)
    (led : Ledger) : LoopState :=
  { gen := New rb rs config, ledger := led, commits := [], loggedErrors := [] }

/-- Startup reconciliation (lines 66..81 of `generator.go`): given the
recovered head `(rb, rs)` and the result of the pending-block query, hand
the pending block to the commit pipeline when the line-75 guard holds,
otherwise discard it. The second component records exactly the blocks
passed to the commit pipeline during reconciliation; a pipeline failure
comes back as `.error`, which `Generate` treats as fatal. -/
def reconcile (config : Config) (led : Ledger) (rb : Option Block) (rs : Option Snapshot)
    (pending : Option Block) (eng : Except GenErr Snapshot) :
    Except GenErr LoopState × List Block :=
  match pending with
  | none => (.ok (initState config rb rs led), [])
  | some b =>
    if pendingCommitGuard rb b then
      let r := commitBlock led (rb, rs) b eng
      match r.err with
      | some e => (.error e, [b])
      | none =>
          (.ok { gen := New r.head.1 r.head.2 config, ledger := r.ledger,
                 commits := [b], loggedErrors := [] }, [b])
    else (.ok (initState config rb rs led), [])

/-- Outcome of `Generate`: `log.Fatal` during startup (the spec: the
process terminates), or the loop state reached when the event stream
ends. -/
inductive GenResult
  | fatal (e : GenErr)
  | exited (final : LoopState)
  deriving Repr

/-- Shallow embedding of `Generate` (lines 59..96): recover the head
(fatal on error), query the pending block (fatal on error), reconcile
(fatal on a commit error), then run the tick loop over the observed
events. The outcomes of the external calls `FC.Recover`,
`getPendingBlock` and the reconciliation commit are supplied as oracle
arguments; `log.Fatal` is modelled from the spec as process
termination. -/
def Generate (config : Config) (led : Ledger)
    (recoverResult : Except GenErr (Option Block × Option Snapshot))
    (pendingResult : Except GenErr (Option Block))
    (reconEng : Except GenErr Snapshot)
    (events : List LoopEvent) : GenResult :=
  match recoverResult with
  | .error e => .fatal e
  | .ok (rb, rs) =>
    match pendingResult with
    | .error e => .fatal e
    | .ok pending =>
      match (reconcile config led rb rs pending reconEng).1 with
      | .error e => .fatal e
      | .ok st => .exited (genLoop st events)

/-- Modelled from the spec: `FC.AddTx` (in `cos`, not under `src/`) admits
a transaction to the ledger engine pending pool; the engine may reject it,
the oracle `engineResult` carrying that outcome. -/
def AddTx (led : Ledger) (tx : Tx) (engineResult : Option GenErr) :
    Ledger × Option GenErr :=
  match engineResult with
  | some e => (led, some e)
  | none => ({ led with pendingTxs := led.pendingTxs ++ [tx] }, none)

/-- Shallow embedding of `Config.Submit` (lines 101..104): forwards the
transaction unchanged to `FC.AddTx` and returns its error. -/
def Config.Submit (g : Config) (led : Ledger) (tx : Tx) (engineResult : Option GenErr) :
    Ledger × Option GenErr :=
  AddTx led tx engineResult

/-- Modelled from the spec: `FC.WaitForBlock` (in `cos`, not under `src/`)
suspends the caller until a block at `height` is durably committed or the
caller is canceled. `none` models a call that has not returned (still
suspended); the call returns `.ok` once a block at `height` is in durable
storage and `.error` on cancellation or storage failure, supplied by the
`interrupt` oracle. -/
def WaitForBlock (led : Ledger) (height : Nat) (interrupt : Option GenErr) :
    Option (Except GenErr Unit) :=
  match interrupt with
  | some e => some (.error e)
  | none =>
    if led.blocks.any (fun b => b.height == height) then some (.ok ()) else none

/-- Comparison by height, the `ORDER BY height` key. -/
def blockLE (a b : Block) : Prop := a.height ≤ b.height

instance : DecidableRel blockLE := fun a b => Nat.decLe a.height b.height

instance : IsTotal Block blockLE := ⟨fun a b => Nat.le_total a.height b.height⟩

instance : IsTrans Block blockLE := ⟨fun _ _ _ h1 h2 => Nat.le_trans h1 h2⟩

/-- Modelled from the spec: the durable-storage query on line 116,
`SELECT data FROM blocks WHERE height > $1 ORDER BY height` — every stored
block with height strictly greater than `afterHeight`, ordered by
height. -/
def blocksQuery (led : Ledger) (afterHeight : Nat) : List Block :=
  List.insertionSort blockLE (led.blocks.filter (fun b => afterHeight < b.height))

/-- The Go return pair `([]*bc.Block, error)`: `blocks = none` models a nil
slice. -/
structure GoResult where
  blocks : Option (List Block)
  err : Option GenErr
  deriving Repr

/-- The height `GetBlocks` waits for: `afterHeight+1` computed on a uint64,
so it wraps modulo `2 ^ 64`. -/
def waitTarget (afterHeight : Nat) : Nat := (afterHeight + 1) % 2 ^ 64

/-- Shallow embedding of `Config.GetBlocks` (lines 108..125): wait for the
block at `afterHeight+1` (uint64), wrapping a wait failure and returning
`nil, err`; then run the storage query, wrapping a query failure and
returning `nil, err`; on success return the queried blocks. `none` models a
call still suspended in `WaitForBlock`; the `queryInterrupt` oracle is a
`pg.ForQueryRows` failure. -/
def Config.GetBlocks (g : Config) (led : Ledger) (afterHeight : Nat)
    (interrupt : Option GenErr) (queryInterrupt : Option GenErr) :
    Option GoResult :=
  match WaitForBlock led (waitTarget afterHeight) interrupt with
  | none => none
  | some (.error e) => some { blocks := none, err := some (.wrapWait e) }
  | some (.ok _) =>
    match queryInterrupt with
    | some e => some { blocks := none, err := some (.wrapQuery e) }
    | none => some { blocks := some (blocksQuery led afterHeight), err := none }

/-- Go method promotion: `Generator` embeds `Config`, so calling `Submit`
on a generator invokes the embedded `Config` method — it receives only the
`Config` fields, never `latestBlock` or `latestSnapshot`. -/
def Generator.Submit (g : Generator) (led : Ledger) (tx : Tx)
    (engineResult : Option GenErr) : Ledger × Option GenErr :=
  Config.Submit g.config led tx engineResult

/-- Go method promotion for `GetBlocks`, as for `Submit`. -/
def Generator.GetBlocks (g : Generator) (led : Ledger) (afterHeight : Nat)
    (interrupt : Option GenErr) (queryInterrupt : Option GenErr) :
    Option GoResult :=
  Config.GetBlocks g.config led afterHeight interrupt queryInterrupt

/-- C1: with a recovered head block `hb`, startup reconciliation hands a
block to the commit pipeline iff a pending block exists whose height is
exactly the uint64 successor of `hb.height`; a pending block of any other
height is never committed, and reconciliation then leaves the state at
`initState` — head still the recovered block, no commits. -/
theorem reconcile_commits_iff_succ_height (config : Config) (led : Ledger) (hb : Block)
    (rs : Option Snapshot) (pending : Option Block) (eng : Except GenErr Snapshot) :
    ((reconcile config led (some hb) rs pending eng).2 ≠ [] ↔
      ∃ b, pending = some b ∧ b.height = (hb.height + 1) % 2 ^ 64)
    ∧ (∀ b, pending = some b → b.height ≠ (hb.height + 1) % 2 ^ 64 →
        reconcile config led (some hb) rs pending eng =
          (.ok (initState config (some hb) rs led), []))
    ∧ (initState config (some hb) rs led).gen.latestBlock = some hb
    ∧ (initState config (some hb) rs led).commits = [] := by
  refine ⟨?_, ?_, rfl, rfl⟩
  · cases pending with
    | none => simp [reconcile]
    | some b =>
      by_cases hg : b.height = (hb.height + 1) % 2 ^ 64
      · simp only [reconcile, pendingCommitGuard, hg, beq_self_eq_true, if_true]
        constructor
        · intro _; exact ⟨b, rfl, hg⟩
        · intro _
          cases h : (commitBlock led (some hb, rs) b eng).err <;> simp
      · have hgf : pendingCommitGuard (some hb) b = false := by
          simp only [pendingCommitGuard, beq_eq_false_iff_ne, ne_eq]
          exact hg
        simp only [reconcile, hgf, if_false]
        simp only [ne_eq, not_true_eq_false]
        constructor
        · intro h; exact absurd rfl h
        · rintro ⟨b2, hb2, hh⟩
          cases hb2
          exact absurd hh hg
  · intro b hpend hne
    cases hpend
    have hgf : pendingCommitGuard (some hb) b = false := by
      simp only [pendingCommitGuard, beq_eq_false_iff_ne, ne_eq]
      exact hne
    simp [reconcile, hgf]

/-- C1 witness: head at height 5, stale pending block at height 9 — the
reconciliation discards it and keeps the recovered head. -/
theorem reconcile_commits_iff_succ_height_witness :
    reconcile (Config.mk [] none) (Ledger.mk [] []) (some (Block.mk 5 0)) none
        (some (Block.mk 9 1)) (.ok (Snapshot.mk 0)) =
      (.ok (initState (Config.mk [] none) (some (Block.mk 5 0)) none (Ledger.mk [] [])), []) :=
  (reconcile_commits_iff_succ_height (Config.mk [] none) (Ledger.mk [] [])
    (Block.mk 5 0) none (some (Block.mk 9 1)) (.ok (Snapshot.mk 0))).2.1
    (Block.mk 9 1) rfl (by decide)

/-- C2: when recovery yields no head block (`latestBlock == nil`), a
pending block of any height is handed to the commit pipeline — the
height check is skipped — and on engine success the commit installs it as
the new head. -/
theorem reconcile_nil_head_commits_any_height (config : Config) (led : Ledger)
    (rs : Option Snapshot) (b : Block) (eng : Except GenErr Snapshot) :
    (reconcile config led none rs (some b) eng).2 = [b]
    ∧ ∀ snap : Snapshot,
        reconcile config led none rs (some b) (.ok snap) =
          (.ok { gen := New (some b) (some snap) config,
                 ledger := { led with blocks := led.blocks ++ [b] },
                 commits := [b], loggedErrors := [] }, [b]) := by
  constructor
  · simp only [reconcile, pendingCommitGuard, if_true]
    cases h : (commitBlock led (none, rs) b eng).err <;> simp
  · intro snap
    simp [reconcile, pendingCommitGuard, commitBlock]

/-- C3: the commit pipeline rejects every candidate whose height is not
exactly the uint64 successor of the current head height: the result is the
mismatch error with the ledger and the head unchanged — nothing is even
partially applied. -/
theorem commitBlock_rejects_noncontiguous (led : Ledger) (hb : Block)
    (snap : Option Snapshot) (b : Block) (eng : Except GenErr Snapshot)
    (h : b.height ≠ (hb.height + 1) % 2 ^ 64) :
    commitBlock led (some hb, snap) b eng =
      { ledger := led, head := (some hb, snap), err := some .commitHeightMismatch } := by
  simp only [commitBlock]
  split
  · next hc => exact absurd hc h
  · rfl

/-- C3 witness: head at height 5, candidate at height 9 (neither stale nor
the successor) — rejected, state unchanged. -/
theorem commitBlock_rejects_noncontiguous_witness :
    commitBlock (Ledger.mk [] []) (some (Block.mk 5 0), none) (Block.mk 9 1)
        (.ok (Snapshot.mk 0)) =
      { ledger := Ledger.mk [] [], head := (some (Block.mk 5 0), none),
        err := some .commitHeightMismatch } :=
  commitBlock_rejects_noncontiguous (Ledger.mk [] []) (Block.mk 5 0) none
    (Block.mk 9 1) (.ok (Snapshot.mk 0)) (by decide)

/-- C5: when the cancellation event is the one selected, the loop returns
at once with the state unchanged; and no event ordered after an observed
cancellation — a simultaneously fired tick included — has any effect: the
state `Generate` ends with is exactly the state reached from the events
before the cancellation. -/
theorem genLoop_stops_at_cancellation :
    (∀ (st : LoopState) (evs : List LoopEvent), genLoop st (.done :: evs) = st)
    ∧ ∀ (st : LoopState) (evs1 evs2 : List LoopEvent),
        genLoop st (evs1 ++ .done :: evs2) = genLoop st evs1 := by
  refine ⟨fun st evs => rfl, fun st evs1 evs2 => ?_⟩
  induction evs1 generalizing st with
  | nil => rfl
  | cons e rest ih =>
    cases e with
    | done => rfl
    | tick s en =>
      show genLoop st (.tick s en :: (rest ++ .done :: evs2)) =
        genLoop st (.tick s en :: rest)
      simp only [genLoop]
      cases MakeBlock st s en with
      | mk st1 errOpt => cases errOpt <;> simp only [] <;> exact ih _

/-- C6: a tick whose production attempt fails changes nothing — the state
after the failed `MakeBlock` is the state before it — and the loop does
not exit or retry: it records the error in the log and proceeds directly
to the remaining events, committing nothing on the failed tick. -/
theorem tick_failure_logs_and_continues (st : LoopState)
    (s : Except GenErr Block) (en : Except GenErr Snapshot)
    (rest : List LoopEvent) (e : GenErr)
    (h : (MakeBlock st s en).2 = some e) :
    (MakeBlock st s en).1 = st
    ∧ genLoop st (.tick s en :: rest) =
        genLoop { st with loggedErrors := st.loggedErrors ++ [e] } rest := by
  have hfst : (MakeBlock st s en).1 = st := by
    cases s with
    | error e0 => rfl
    | ok cand =>
      simp only [MakeBlock]
      cases hL : st.gen.latestBlock with
      | none =>
        cases en with
        | error e1 =>
          simp only [commitBlock, hL]
          cases st with
          | mk g led cs logs => cases g with
            | mk c lb ls =>
              simp only at hL
              simp [hL]
        | ok snap =>
          exfalso
          simp only [MakeBlock, commitBlock, hL] at h
          exact Option.noConfusion h
      | some hb =>
        by_cases hh : cand.height = (hb.height + 1) % 2 ^ 64
        · cases en with
          | error e1 =>
            simp only [commitBlock, hL, if_pos hh]
            cases st with
            | mk g led cs logs => cases g with
              | mk c lb ls =>
                simp only at hL
                simp [hL]
          | ok snap =>
            exfalso
            simp only [MakeBlock, commitBlock, hL, if_pos hh] at h
            exact Option.noConfusion h
        · simp only [commitBlock, hL, if_neg hh]
          cases st with
          | mk g led cs logs => cases g with
            | mk c lb ls =>
              simp only at hL
              simp [hL]
  refine ⟨hfst, ?_⟩
  show (match MakeBlock st s en with
    | (st1, some e1) => genLoop { st1 with loggedErrors := st1.loggedErrors ++ [e1] } rest
    | (st1, none) => genLoop st1 rest) =
    genLoop { st with loggedErrors := st.loggedErrors ++ [e] } rest
  have hpair : MakeBlock st s en = (st, some e) := by
    have := Prod.mk.eta (p := MakeBlock st s en)
    rw [← this, hfst, h]
  rw [hpair]

/-- C6 witness: a signer failure on a tick is logged and the loop goes on
with the state otherwise untouched. -/
theorem tick_failure_logs_and_continues_witness :
    (MakeBlock (initState (Config.mk [] none) none none (Ledger.mk [] []))
        (.error (.signerFailed 7)) (.ok (Snapshot.mk 0))).1 =
      initState (Config.mk [] none) none none (Ledger.mk [] [])
    ∧ genLoop (initState (Config.mk [] none) none none (Ledger.mk [] []))
        (.tick (.error (.signerFailed 7)) (.ok (Snapshot.mk 0)) :: []) =
      genLoop { initState (Config.mk [] none) none none (Ledger.mk [] []) with
        loggedErrors :=
          (initState (Config.mk [] none) none none (Ledger.mk [] [])).loggedErrors
            ++ [.signerFailed 7] } [] :=
  tick_failure_logs_and_continues
    (initState (Config.mk [] none) none none (Ledger.mk [] []))
    (.error (.signerFailed 7)) (.ok (Snapshot.mk 0)) [] (.signerFailed 7) rfl

/-- C7: every startup failure — recovery failing, the pending-block query
failing, or the reconciliation commit failing — is fatal: `Generate`
terminates with `.fatal` whatever events would have followed, so no
production cycle ever runs after such a failure. -/
theorem startup_failure_is_fatal (config : Config) (led : Ledger) :
    (∀ (e : GenErr) (p : Except GenErr (Option Block))
        (eng : Except GenErr Snapshot) (evs : List LoopEvent),
        Generate config led (.error e) p eng evs = .fatal e)
    ∧ (∀ (rb : Option Block) (rs : Option Snapshot) (e : GenErr)
        (eng : Except GenErr Snapshot) (evs : List LoopEvent),
        Generate config led (.ok (rb, rs)) (.error e) eng evs = .fatal e)
    ∧ ∀ (rb : Option Block) (rs : Option Snapshot) (pending : Option Block)
        (eng : Except GenErr Snapshot) (e : GenErr) (evs : List LoopEvent),
        (reconcile config led rb rs pending eng).1 = .error e →
        Generate config led (.ok (rb, rs)) (.ok pending) eng evs = .fatal e := by
  refine ⟨fun e p eng evs => rfl, fun rb rs e eng evs => rfl, ?_⟩
  intro rb rs pending eng e evs hrec
  simp only [Generate, hrec]

/-- C7 witness: reconciliation with no recovered head and a pending block
whose commit fails in the engine is fatal, and the tick events never
run. -/
theorem startup_failure_is_fatal_witness :
    Generate (Config.mk [] none) (Ledger.mk [] []) (.ok (none, none))
        (.ok (some (Block.mk 0 0))) (.error (.engineFailed 3))
        [.tick (.ok (Block.mk 1 0)) (.ok (Snapshot.mk 1))] =
      .fatal (.engineFailed 3) :=
  (startup_failure_is_fatal (Config.mk [] none) (Ledger.mk [] [])).2.2 none none
    (some (Block.mk 0 0)) (.error (.engineFailed 3)) (.engineFailed 3)
    [.tick (.ok (Block.mk 1 0)) (.ok (Snapshot.mk 1))] rfl

/-- C4: GetBlocks returns successfully only once a block at the wait
target — `afterHeight + 1` as the uint64 the code computes — is in durable
storage, and then it returns exactly the stored blocks with height
strictly greater than `afterHeight`, in strictly ascending height order
(storage holds one record per height, the Nodup hypothesis). -/
theorem getBlocks_success_exact (g : Config) (led : Ledger) (afterHeight : Nat)
    (interrupt queryInterrupt : Option GenErr) (r : GoResult)
    (hnd : (led.blocks.map Block.height).Nodup)
    (h : Config.GetBlocks g led afterHeight interrupt queryInterrupt = some r)
    (hok : r.err = none) :
    (∃ blk ∈ led.blocks, blk.height = waitTarget afterHeight)
    ∧ ∃ bs, r.blocks = some bs
        ∧ bs.Perm (led.blocks.filter (fun blk => afterHeight < blk.height))
        ∧ (∀ blk ∈ bs, afterHeight < blk.height)
        ∧ List.Sorted (· < ·) (bs.map Block.height) := by
  cases interrupt with
  | some e =>
    simp only [Config.GetBlocks, WaitForBlock, Option.some.injEq] at h
    subst h
    simp at hok
  | none =>
    by_cases hany :
        (led.blocks.any (fun b => b.height == waitTarget afterHeight)) = true
    · simp only [Config.GetBlocks, WaitForBlock, hany, if_true] at h
      cases queryInterrupt with
      | some e =>
        simp only [Option.some.injEq] at h
        subst h
        simp at hok
      | none =>
        simp only [Option.some.injEq] at h
        subst h
        refine ⟨?_, blocksQuery led afterHeight, rfl, ?_, ?_, ?_⟩
        · obtain ⟨blk, hmem, hbeq⟩ := List.any_eq_true.mp hany
          exact ⟨blk, hmem, by simpa using hbeq⟩
        · exact List.perm_insertionSort blockLE _
        · intro blk hblk
          have hmem : blk ∈ led.blocks.filter (fun b => afterHeight < b.height) :=
            (List.mem_insertionSort blockLE).mp hblk
          exact of_decide_eq_true (List.mem_filter.mp hmem).2
        · have hs : List.Sorted blockLE (blocksQuery led afterHeight) :=
            List.sorted_insertionSort blockLE _
          have hsle :
              List.Sorted (· ≤ ·) ((blocksQuery led afterHeight).map Block.height) :=
            List.pairwise_map.mpr hs
          have hperm :
              (blocksQuery led afterHeight).Perm
                (led.blocks.filter (fun b => afterHeight < b.height)) :=
            List.perm_insertionSort blockLE _
          have hsub :
              (led.blocks.filter (fun b => afterHeight < b.height)).Sublist led.blocks :=
            List.filter_sublist led.blocks
          have hndq : ((blocksQuery led afterHeight).map Block.height).Nodup :=
            ((hperm.map Block.height).nodup_iff).mpr ((hsub.map Block.height).nodup hnd)
          exact hsle.lt_of_le hndq
    · exfalso
      simp only [Config.GetBlocks, WaitForBlock, hany, if_false] at h
      exact Option.noConfusion h

/-- C4 witness: storage holds exactly block 1; GetBlocks after height 0
returns it, sorted and strictly above 0, with the wait target present. -/
theorem getBlocks_success_exact_witness :
    (∃ blk ∈ (Ledger.mk [Block.mk 1 0] []).blocks, blk.height = waitTarget 0)
    ∧ ∃ bs, (GoResult.mk (some [Block.mk 1 0]) none).blocks = some bs
        ∧ bs.Perm ((Ledger.mk [Block.mk 1 0] []).blocks.filter
            (fun blk => 0 < blk.height))
        ∧ (∀ blk ∈ bs, 0 < blk.height)
        ∧ List.Sorted (· < ·) (bs.map Block.height) :=
  getBlocks_success_exact (Config.mk [] none) (Ledger.mk [Block.mk 1 0] []) 0
    none none (GoResult.mk (some [Block.mk 1 0]) none) (by decide) rfl rfl

/-- C8: every GetBlocks failure — the wait failing, or the storage query
failing after a successful wait — returns an explicit wrapped error with a
nil block list, and in general any returned error comes with a nil list:
no partial list ever accompanies an error. -/
theorem getBlocks_failure_nil_list (g : Config) (led : Ledger) (afterHeight : Nat) :
    (∀ (e : GenErr) (q : Option GenErr),
        Config.GetBlocks g led afterHeight (some e) q =
          some { blocks := none, err := some (.wrapWait e) })
    ∧ (∀ e : GenErr,
        (led.blocks.any (fun b => b.height == waitTarget afterHeight)) = true →
        Config.GetBlocks g led afterHeight none (some e) =
          some { blocks := none, err := some (.wrapQuery e) })
    ∧ ∀ (i q : Option GenErr) (r : GoResult) (e : GenErr),
        Config.GetBlocks g led afterHeight i q = some r → r.err = some e →
        r.blocks = none := by
  refine ⟨fun e q => rfl, ?_, ?_⟩
  · intro e hany
    simp only [Config.GetBlocks, WaitForBlock, hany, if_true]
  · intro i q r e h herr
    cases i with
    | some e0 =>
      simp only [Config.GetBlocks, WaitForBlock, Option.some.injEq] at h
      subst h
      rfl
    | none =>
      by_cases hany :
          (led.blocks.any (fun b => b.height == waitTarget afterHeight)) = true
      · simp only [Config.GetBlocks, WaitForBlock, hany, if_true] at h
        cases q with
        | some e0 =>
          simp only [Option.some.injEq] at h
          subst h
          rfl
        | none =>
          simp only [Option.some.injEq] at h
          subst h
          simp at herr
      · simp only [Config.GetBlocks, WaitForBlock, hany, if_false] at h
        exact Option.noConfusion h

/-- C8 witness: with block 1 in storage, a query failure after the wait
yields the wrapped error and a nil list. -/
theorem getBlocks_failure_nil_list_witness :
    Config.GetBlocks (Config.mk [] none) (Ledger.mk [Block.mk 1 0] []) 0 none
        (some (.storageFailed 4)) =
      some { blocks := none, err := some (.wrapQuery (.storageFailed 4)) } :=
  (getBlocks_failure_nil_list (Config.mk [] none) (Ledger.mk [Block.mk 1 0] []) 0).2.1
    (.storageFailed 4) (by decide)

/-- C9: Submit and GetBlocks are the embedded Config methods promoted to
Generator: their results are invariant under any change of `latestBlock`
and `latestSnapshot`, and each call equals the bare Config method applied
to the generator configuration and the external ledger state — the head
pair is neither read nor written. -/
theorem submit_getBlocks_never_touch_head :
    (∀ (c : Config) (lb1 lb2 : Option Block) (ls1 ls2 : Option Snapshot)
        (led : Ledger) (tx : Tx) (en : Option GenErr),
        (Generator.mk c lb1 ls1).Submit led tx en =
          (Generator.mk c lb2 ls2).Submit led tx en)
    ∧ (∀ (c : Config) (lb1 lb2 : Option Block) (ls1 ls2 : Option Snapshot)
        (led : Ledger) (a : Nat) (i q : Option GenErr),
        (Generator.mk c lb1 ls1).GetBlocks led a i q =
          (Generator.mk c lb2 ls2).GetBlocks led a i q)
    ∧ (∀ (g : Generator) (led : Ledger) (tx : Tx) (en : Option GenErr),
        g.Submit led tx en = Config.Submit g.config led tx en)
    ∧ ∀ (g : Generator) (led : Ledger) (a : Nat) (i q : Option GenErr),
        g.GetBlocks led a i q = Config.GetBlocks g.config led a i q := by
  exact ⟨fun _ _ _ _ _ _ _ _ => rfl, fun _ _ _ _ _ _ _ _ _ => rfl,
    fun _ _ _ _ => rfl, fun _ _ _ _ _ => rfl⟩

/-- C10: at `afterHeight = 2 ^ 64 - 1` the uint64 wait target
`afterHeight + 1` wraps to 0, so GetBlocks waits for block height 0: the
call proceeds past the wait — rather than failing or waiting for a height
above `afterHeight` — exactly when a block of height 0 is in storage. -/
theorem getBlocks_wraps_at_uint64_max (g : Config) (led : Ledger) (q : Option GenErr) :
    waitTarget (2 ^ 64 - 1) = 0
    ∧ (Config.GetBlocks g led (2 ^ 64 - 1) none q ≠ none ↔
        ∃ blk ∈ led.blocks, blk.height = 0) := by
  have hw : waitTarget (2 ^ 64 - 1) = 0 := by
    simp only [waitTarget]
    norm_num
  refine ⟨hw, ?_⟩
  by_cases hany : (led.blocks.any (fun b => b.height == waitTarget (2 ^ 64 - 1))) = true
  · have hex : ∃ blk ∈ led.blocks, blk.height = 0 := by
      obtain ⟨blk, hmem, hbeq⟩ := List.any_eq_true.mp hany
      refine ⟨blk, hmem, ?_⟩
      rw [← hw]
      simpa using hbeq
    simp only [Config.GetBlocks, WaitForBlock, hany, if_true]
    cases q <;> simp [hex]
  · have hnex : ¬∃ blk ∈ led.blocks, blk.height = 0 := by
      intro ⟨blk, hmem, hzero⟩
      apply hany
      refine List.any_eq_true.mpr ⟨blk, hmem, ?_⟩
      rw [hw]
      simpa using hzero
    simp only [Config.GetBlocks, WaitForBlock, hany, if_false]
    simp [hnex]

end ChainGenerator
